import Mathlib

/-!
# Verification of the pairwise comparison engine (sredun.py)

Shallow embedding of the core of `sredun.py`: entity registration
(`Receptor.__init__`), score extraction (`get_ga_score`), the retrying
external scorer (`glosa`), the disk-backed pair cache
(`receptors_similarity`), sequential and pooled row comparison
(`receptor_compare`, `receptor_compare_con`), matrix post-processing
(thresholding, ranking) and the control flow of `main`.

Python floats are modelled as rationals (`ℚ`); the file system is a map
from file names to file contents; the external `glosa` subprocess is a
parameter giving, per command and per invocation, either a captured
stdout (successful, zero exit) or `none` (non-zero exit, i.e. a
`CalledProcessError`).  Uncaught Python exceptions are modelled with
`Except PyErr`.
-/

/-- Uncaught Python exceptions that the modelled code can raise. -/
inductive PyErr : Type
  /-- `ValueError`, raised by `float()` on a non-numeric string. -/
  | valueError : PyErr
  /-- `IndexError`, raised by out-of-range list indexing. -/
  | indexError : PyErr
  /-- `TypeError`, raised e.g. by `len()` on an `int`. -/
  | typeError : PyErr
deriving DecidableEq

instance {ε α : Type _} [DecidableEq ε] [DecidableEq α] : DecidableEq (Except ε α) :=
  fun a b =>
    match a, b with
    | .error x, .error y =>
      if h : x = y then .isTrue (congrArg _ h)
      else .isFalse (fun c => h (Except.error.inj c))
    | .ok x, .ok y =>
      if h : x = y then .isTrue (congrArg _ h)
      else .isFalse (fun c => h (Except.ok.inj c))
    | .error _, .ok _ => .isFalse (fun c => Except.noConfusion c)
    | .ok _, .error _ => .isFalse (fun c => Except.noConfusion c)

/-- Value of a list of decimal digit characters. -/
def digitsVal (ds : List Char) : ℕ :=
  ds.foldl (fun acc c => acc * 10 + (c.toNat - '0'.toNat)) 0

/-- Exponent suffix of a Python float literal: applied to a mantissa
`num / den` already parsed.  (Rationals are built with `Rat.divInt`
on integer numerator and denominator.) -/
def pyFloatExp (num den : ℤ) (r : List Char) : Option ℚ :=
  let esignRest : Bool × List Char :=
    match r with
    | '-' :: rr => (true, rr)
    | '+' :: rr => (false, rr)
    | rr => (false, rr)
  let eds := esignRest.2.takeWhile Char.isDigit
  if eds.isEmpty ∨ ¬ (esignRest.2.dropWhile Char.isDigit).isEmpty then none
  else if esignRest.1 then some (Rat.divInt num (den * (10 : ℤ) ^ digitsVal eds))
  else some (Rat.divInt (num * (10 : ℤ) ^ digitsVal eds) den)

/-- Model of Python `float(s)` on an already-stripped string: optional
sign, decimal digits with optional fraction and exponent.  Returns
`none` where Python raises `ValueError`. -/
def pyFloat? (s : String) : Option ℚ :=
  let signRest : ℤ × List Char :=
    match s.data with
    | '-' :: r => (-1, r)
    | '+' :: r => (1, r)
    | r => (1, r)
  let rest := signRest.2
  let intPart := rest.takeWhile Char.isDigit
  let rest1 := rest.dropWhile Char.isDigit
  let fracRest : List Char × List Char :=
    match rest1 with
    | '.' :: r => (r.takeWhile Char.isDigit, r.dropWhile Char.isDigit)
    | r => ([], r)
  let fracPart := fracRest.1
  if intPart.isEmpty ∧ fracPart.isEmpty then none
  else
    let num : ℤ :=
      signRest.1 * ((digitsVal intPart : ℤ) * (10 : ℤ) ^ fracPart.length
        + (digitsVal fracPart : ℤ))
    let den : ℤ := (10 : ℤ) ^ fracPart.length
    match fracRest.2 with
    | [] => some (Rat.divInt num den)
    | 'e' :: r => pyFloatExp num den r
    | 'E' :: r => pyFloatExp num den r
    | _ => none

/-- Model of Python `str.splitlines()` (newline variants other than
`"\n"` are not modelled; the repository's data never contains them). -/
def pySplitlines (s : String) : List String :=
  if s = "" then []
  else if s.endsWith "\n" then (s.dropRight 1).splitOn "\n"
  else s.splitOn "\n"

/-- Model of Python `str.split()` with no argument: split on whitespace
runs, dropping empty pieces. -/
def pySplitWs (s : String) : List String :=
  (s.split Char.isWhitespace).filter (fun t => t ≠ "")

/-- `get_ga_score`, lines 108-115: scan the lines of the scorer output;
on the first line starting with `GA-score`, take `line.split(':')[1]`
(raising `IndexError` if there is no `':'`) and parse it as a float
(raising `ValueError` on garbage); if no line carries the marker,
return the sentinel `-1.0`. -/
def ga_score_lines : List String → Except PyErr ℚ
  | [] => .ok (-1)
  | line :: rest =>
    if line.startsWith "GA-score" then
      match (line.splitOn ":").get? 1 with
      | none => .error .indexError
      | some piece =>
        match pyFloat? piece.trim with
        | none => .error .valueError
        | some q => .ok q
    else ga_score_lines rest

/-- `get_ga_score(glosa_output)`, lines 108-115. -/
def get_ga_score (glosa_output : String) : Except PyErr ℚ :=
  ga_score_lines (pySplitlines glosa_output)

/-- The dictionary returned by `glosa`, lines 125 and 128. -/
structure GlosaResult where
  score : ℚ
  output : String
deriving DecidableEq

/-- The retry loop of `glosa`, lines 122-127: `i` is the current
attempt index, the fuel starts at 3 (`for i in range(3)`).  A `none`
attempt is a `CalledProcessError` (caught, retried); a `some out`
attempt returns immediately with `get_ga_score out` (whose own
exceptions are NOT caught by the `except` clause and propagate).  The
second component counts external invocations actually made. -/
def glosaAttempts (attempts : ℕ → Option String) :
    ℕ → ℕ → Except PyErr GlosaResult × ℕ
  | i, 0 => (.ok ⟨-1, ""⟩, i)
  | i, fuel + 1 =>
    match attempts i with
    | some out =>
      match get_ga_score out with
      | .ok s => (.ok ⟨s, out⟩, i + 1)
      | .error e => (.error e, i + 1)
    | none => glosaAttempts attempts (i + 1) fuel

/-- `glosa(receptor1, receptor2)`, lines 118-128, abstracted over the
behaviour of the external command: on exhaustion of the three attempts
it returns score `-1.0` with `glosa_output` still holding its initial
value `''` (a successful attempt returns from inside the loop, so the
variable is never read back after an assignment). -/
def glosa (attempts : ℕ → Option String) : Except PyErr GlosaResult × ℕ :=
  glosaAttempts attempts 0 3

example : get_ga_score "" = .ok (-1) := by with_unfolding_all decide
example : get_ga_score "GA-score : 0.25" = .ok (1/4) := by with_unfolding_all decide
example : get_ga_score "junk\nGA-score : 0.5\nmore" = .ok (1/2) := by
  with_unfolding_all decide
example : get_ga_score "no marker" = .ok (-1) := by with_unfolding_all decide
example : get_ga_score "GA-score" = .error .indexError := by with_unfolding_all decide
example : get_ga_score "GA-score : oops" = .error .valueError := by
  with_unfolding_all decide
example : glosa (fun _ => none) = (.ok ⟨-1, ""⟩, 3) := by with_unfolding_all decide
example : glosa (fun _ => some "GA-score : 0.25") = (.ok ⟨1/4, "GA-score : 0.25"⟩, 1) := by
  with_unfolding_all decide

/-- The entity record built by `Receptor.__init__`, lines 25-74.  A
malformed record leaves every attribute `None`; a well-formed one fills
each field.  `index` is the *string* form of the process-wide class
counter (line 63: `self.index = f'{Receptor.index}'`). -/
structure Receptor where
  name : Option String
  index : Option String
  info : Option String
  short_info : Option String
  pdb : Option String
  directory : Option String
  filename : Option String
  cf_filename : Option String
deriving DecidableEq

/-- The all-`None` receptor produced for a malformed record,
lines 31-41. -/
def nullReceptor : Receptor :=
  ⟨none, none, none, none, none, none, none, none⟩

/-- Line 66: `directory if directory.endswith('/') else f'{directory}/'
if directory else ''`. -/
def normalize_directory (directory : String) : String :=
  if directory.endsWith "/" then directory
  else if directory ≠ "" then directory ++ "/"
  else ""

/-- `Receptor.__init__(pdb, directory)`, lines 29-74, with the
process-wide class counter `Receptor.index` threaded explicitly: takes
the current counter, returns the constructed receptor and the new
counter (incremented only for well-formed records).  Lines 57 and 60
read `self.index` before line 63 assigns it, so they see the class
counter; the value printed is therefore the same number. -/
def registerOne (counter : ℕ) (pdb : String) (directory : String) : Receptor × ℕ :=
  match pySplitlines pdb with
  | [] => (nullReceptor, counter)
  | first :: _ =>
    match (pySplitWs first).get? 1 with
    | none => (nullReceptor, counter)
    | some rawName =>
      let name0 := rawName.toLower
      let name := if name0.endsWith "_pocket" then name0.dropRight 7 else name0
      let dir := normalize_directory directory
      (⟨some name,
        some (toString counter),
        some ("[" ++ toString counter ++ "]:\t" ++ name),
        some ("[" ++ toString counter ++ "]: " ++ name),
        some pdb,
        some dir,
        some (dir ++ name ++ "_pocket.pdb"),
        some (dir ++ name ++ "_pocket-cf.pdb")⟩, counter + 1)

/-- Line 223: `receptors = [Receptor(pdb, args.dir) for pdb in pdbs]`,
threading the class counter left to right. -/
def registerAll (counter : ℕ) (pdbs : List String) (directory : String) :
    List Receptor × ℕ :=
  match pdbs with
  | [] => ([], counter)
  | pdb :: rest =>
    let rc := registerOne counter pdb directory
    let rest' := registerAll rc.2 rest directory
    (rc.1 :: rest'.1, rest'.2)

/-- Python f-string conversion of a `str`-or-`None` attribute:
`f'{None}'` is the literal string `"None"`. -/
def fstr : Option String → String
  | none => "None"
  | some s => s

/-- The working directory's files: a map from file name to contents
(`none` = the file does not exist). -/
def FS : Type := String → Option String

/-- Writing a whole file (`open(.., 'w')` followed by `write`). -/
def fsUpdate (fs : FS) (key val : String) : FS :=
  fun k => if k = key then some val else fs k

/-- Line 132: `f'{receptor1.directory}{receptor1.name}_{receptor2.name}.out'`. -/
def out_file (r1 r2 : Receptor) : String :=
  fstr r1.directory ++ fstr r1.name ++ "_" ++ fstr r2.name ++ ".out"

/-- Line 133: `f'{receptor1.directory}{receptor2.name}_{receptor1.name}.out'`. -/
def out_file_opt (r1 r2 : Receptor) : String :=
  fstr r1.directory ++ fstr r2.name ++ "_" ++ fstr r1.name ++ ".out"

/-- Lines 120-121: the external command for a pair. -/
def glosa_cmd (r1 r2 : Receptor) : List String :=
  ["glosa", "-s1", fstr r1.filename, "-s1cf", fstr r1.cf_filename,
   "-s2", fstr r2.filename, "-s2cf", fstr r2.cf_filename]

/-- Lines 147-153: a non-negative score is returned as is, a negative
(sentinel) score is replaced by `0.0`. -/
def score_or_zero (s : ℚ) : ℚ := if 0 ≤ s then s else 0

/-- Result of one `receptors_similarity` call: the returned score, the
file system after the call, and how many external scorer invocations
were made. -/
structure SimResult where
  score : ℚ
  fs : FS
  calls : ℕ

/-- `receptors_similarity(receptor1, receptor2)`, lines 131-153,
abstracted over the behaviour `ext` of the external command (first
argument: the command line; second: the invocation index inside one
`glosa` call).  If neither ordering of the pair's cache file exists,
`glosa` is run and its raw output is written under the
first-receptor-first name; otherwise the existing file (the
first-ordering name winning) is read back through `get_ga_score`.
Exceptions from `get_ga_score` (`ValueError`/`IndexError`) are not
caught anywhere and propagate. -/
def receptors_similarity (ext : List String → ℕ → Option String) (fs : FS)
    (r1 r2 : Receptor) : Except PyErr SimResult :=
  if fs (out_file r1 r2) = none ∧ fs (out_file_opt r1 r2) = none then
    match glosa (ext (glosa_cmd r1 r2)) with
    | (.error e, _) => .error e
    | (.ok res, n) =>
      .ok ⟨score_or_zero res.score, fsUpdate fs (out_file r1 r2) res.output, n⟩
  else
    match get_ga_score ((fs (if fs (out_file r1 r2) ≠ none then out_file r1 r2
        else out_file_opt r1 r2)).getD "") with
    | .error e => .error e
    | .ok s => .ok ⟨score_or_zero s, fs, 0⟩

/-- `receptor_compare(receptor, receptors)`, lines 156-157: sequential
row comparison; the file system is threaded call to call, scorer
invocations are summed.  A raised exception aborts the whole row. -/
def receptor_compare (ext : List String → ℕ → Option String) (fs : FS)
    (receptor : Receptor) : List Receptor → Except PyErr (List ℚ × FS × ℕ)
  | [] => .ok ([], fs, 0)
  | r2 :: rest =>
    match receptors_similarity ext fs receptor r2 with
    | .error e => .error e
    | .ok g =>
      match receptor_compare ext g.fs receptor rest with
      | .error e => .error e
      | .ok (ss, fs', m) => .ok (g.score :: ss, fs', g.calls + m)

/-- The semantics of `pool.starmap(f, jobs)`: every job is evaluated
and the results are collected in submission order; a job that raises
re-raises (the first, in submission order) in the parent. -/
def pool_starmap (f : Receptor → Except PyErr ℚ) :
    List Receptor → Except PyErr (List ℚ)
  | [] => .ok []
  | t :: ts =>
    match f t with
    | .error e => .error e
    | .ok s => Except.map (fun ss => s :: ss) (pool_starmap f ts)

/-- `receptor_compare_con(receptor, receptors)`, lines 160-164: pooled
row comparison.  Worker processes are forked at submission time, so
each worker starts from the submission-time file system `fs` (workers
are modelled as not observing one another's cache writes: the schedule
in which every worker starts before any worker finishes).  Results are
reassembled in submission order. -/
def receptor_compare_con (ext : List String → ℕ → Option String) (fs : FS)
    (receptor : Receptor) (receptors : List Receptor) : Except PyErr (List ℚ) :=
  pool_starmap
    (fun t => Except.map SimResult.score (receptors_similarity ext fs receptor t))
    receptors

/-- The empty working directory. -/
def fsEmpty : FS := fun _ => none

example :
    (registerOne 0 "HEADER 1ABC_POCKET\nATOM 1" "analysis").1.name = some "1abc" := by
  with_unfolding_all decide
example : (registerOne 0 "HEADER 1ABC_POCKET" "analysis").1.index = some "0" := by
  with_unfolding_all decide
example : (registerOne 0 "junk" "analysis").1 = nullReceptor := by
  with_unfolding_all decide
example :
    (registerOne 3 "HEADER r2 x" "d/").1.filename = some "d/r2_pocket.pdb" := by
  with_unfolding_all decide

/-- Round a fraction `n / d` (with `d > 0`) to the nearest integer,
ties to even — the rounding mode of Python's `round`. -/
def roundHalfEven (n : ℤ) (d : ℕ) : ℤ :=
  let f := Int.fdiv n d
  let r2 := 2 * (n - f * d)
  if r2 < d then f
  else if (d : ℤ) < r2 then f + 1
  else if f % 2 = 0 then f else f + 1

/-- Python `round(q, 4)` on the rational model of a float: round
`q * 10^4` half-to-even, divide back. -/
def pyRound4 (q : ℚ) : ℚ :=
  Rat.divInt (roundHalfEven (q.num * 10000) q.den) 10000

/-- Line 266: `[list(map(lambda x: round(x, 4) if x >= args.threshold
else 0.0, sim)) for sim in raw_similarities]`. -/
def apply_threshold (t : ℚ) (m : List (List ℚ)) : List (List ℚ) :=
  m.map fun sim => sim.map fun x => if t ≤ x then pyRound4 x else 0

/-- Entry `m[i][j]` of a score matrix, if present. -/
def mentry (m : List (List ℚ)) (i j : ℕ) : Option ℚ :=
  (m.get? i).bind fun row => row.get? j

/-- Insert an (index, score) pair into a list already sorted by
descending score, before the first element whose score is `≤` the new
one.  Inserting an element that originally preceded the list elements
keeps equal scores in original order. -/
def insort_desc (x : ℕ × ℚ) : List (ℕ × ℚ) → List (ℕ × ℚ)
  | [] => [x]
  | y :: ys => if x.2 < y.2 then y :: insort_desc x ys else x :: y :: ys

/-- Line 290-291: `sorted(receptor_sim_dict.items(), key=lambda item:
item[1], reverse=True)`.  Python's `sorted` is stable; with
`reverse=True` it orders by descending value keeping equal-valued
items in original order.  Modelled as a stable insertion sort. -/
def py_sorted_desc : List (ℕ × ℚ) → List (ℕ × ℚ)
  | [] => []
  | x :: xs => insort_desc x (py_sorted_desc xs)

/-- Lines 287-293: enumerate a row, sort by descending score (stable),
then round every score to 4 decimal places. -/
def rank_row (row : List ℚ) : List (ℕ × ℚ) :=
  (py_sorted_desc row.enum).map fun p => (p.1, pyRound4 p.2)

/-- Is a record malformed in the sense of lines 30-31 (`len(split_pdb)
< 1 or len(split_pdb[0].split()) < 2`)? -/
def is_malformed (pdb : String) : Bool :=
  match pySplitlines pdb with
  | [] => true
  | first :: _ => (pySplitWs first).length < 2

/-- The numeric index `Receptor.__init__` assigns to each record of a
batch when the class counter starts at `c` (`none` for malformed
records, which do not advance the counter). -/
def wf_indices (c : ℕ) : List String → List (Option ℕ)
  | [] => []
  | pdb :: rest =>
    if is_malformed pdb then none :: wf_indices c rest
    else some c :: wf_indices (c + 1) rest

/-- Number of well-formed records in a batch (= how far one batch
advances the class counter). -/
def wfCount (pdbs : List String) : ℕ :=
  (pdbs.filter fun pdb => ! is_malformed pdb).length

/-- Python `l[i]` for an `int` index: non-negative indexes from the
front, negative wraps from the back; `none` = `IndexError`. -/
def pyIndex {α : Type} (l : List α) (i : ℤ) : Option α :=
  if 0 ≤ i then l.get? i.toNat
  else if (-i).toNat ≤ l.length then l.get? (l.length - (-i).toNat)
  else none

/-- Lines 252-258 (`pro` mode): select the source receptor and the
target list from `args.protein`; `none` = the `else` branch that
prints `Wrong arguments` and exits 1. -/
def pro_selection (receptors : List Receptor) (ps : List ℤ) :
    Option (Receptor × List Receptor) :=
  match ps with
  | [p0] =>
    if 0 ≤ p0 ∧ p0 < (receptors.length : ℤ) then
      (pyIndex receptors p0).map fun src => (src, receptors)
    else none
  | [p0, p1] =>
    if (0 ≤ p0 ∧ p0 < (receptors.length : ℤ))
        ∧ (0 ≤ p1 ∧ p1 < (receptors.length : ℤ)) then
      match pyIndex receptors p0, pyIndex receptors p1 with
      | some src, some tgt => some (src, [tgt])
      | _, _ => none
    else none
  | _ => none

/-- Line 263: `[compare_func(rec, receptors) for rec in receptors]`
(sequential `compare_func`), threading the working directory state row
to row. -/
def all_rows_go (ext : List String → ℕ → Option String) (targets : List Receptor) :
    FS → List Receptor → Except PyErr (List (List ℚ) × FS)
  | fs, [] => .ok ([], fs)
  | fs, r :: rs =>
    match receptor_compare ext fs r targets with
    | .error e => .error e
    | .ok (row, fs', _) =>
      match all_rows_go ext targets fs' rs with
      | .error e => .error e
      | .ok (rows, fs'') => .ok (row :: rows, fs'')

/-- The full all-vs-all raw score matrix of line 263. -/
def all_rows (ext : List String → ℕ → Option String) (fs : FS)
    (receptors : List Receptor) : Except PyErr (List (List ℚ)) :=
  Except.map (fun x => x.1) (all_rows_go ext receptors fs receptors)

/-- Observable outcome of one `main()` run (lines 210-353): the
`sys.exit` code if any, the uncaught exception if any, whether the
comparison stage was entered, the thresholded matrix if line 266 was
reached, and whether the similarity report (lines 278-305) and the
graph stage (lines 310-353) completed. -/
structure MainOutcome where
  exitCode : Option ℕ
  error : Option PyErr
  comparisonsStarted : Bool
  matrix : Option (List (List ℚ))
  reportDone : Bool
  graphsDone : Bool
deriving DecidableEq

/-- Lines 278-307: the similarity report block.  `mode1` is the mode
after the line-274 workaround.  Returns whether the report was
produced, or the exception the block raises: line 281's
`len(args.protein)` on the integer default (`TypeError`), line 286's
`raw_similarities[...]` or line 306's `args.protein[0]` on an empty
`-p` list (`IndexError`). -/
def report_stage (receptors : List Receptor) (raw : List (List ℚ))
    (mode1 : String) (protein : Option (List ℤ)) : Except PyErr Bool :=
  if mode1 = "all" ∨ mode1 = "pro" ∨ mode1 = "sim" ∨ mode1 = "dist" then
    match protein with
    | none => .error .typeError
    | some ps =>
      match ps with
      | [p0] =>
        if 0 ≤ p0 ∧ p0 < (receptors.length : ℤ) then
          match pyIndex raw p0 with
          | none => .error .indexError
          | some _ => .ok true
        else .ok false
      | [p0, p1] =>
        if (0 ≤ p0 ∧ p0 < (receptors.length : ℤ))
            ∧ (0 ≤ p1 ∧ p1 < (receptors.length : ℤ)) then
          match pyIndex raw 0 with
          | none => .error .indexError
          | some _ => .ok true
        else .ok false
      | [] => .error .indexError
      | _ => .ok false
  else .ok false

/-- Lines 278-353: the similarity report followed by the two graph
blocks.  The padding detail of lines 313-316/331-334 is reduced to the
`similarities[0]` `IndexError` on an empty matrix; plotting itself is
external. -/
def report_and_graphs (receptors : List Receptor) (raw : List (List ℚ))
    (similarities : List (List ℚ)) (mode1 : String) (protein : Option (List ℤ)) :
    MainOutcome :=
  match report_stage receptors raw mode1 protein with
  | .error e => ⟨none, some e, true, some similarities, false, false⟩
  | .ok rep =>
    if (mode1 = "all" ∨ mode1 = "sim" ∨ mode1 = "pro")
        ∨ (mode1 = "all" ∨ mode1 = "dist" ∨ mode1 = "pro") then
      if similarities.isEmpty then
        ⟨none, some .indexError, true, some similarities, rep, false⟩
      else ⟨none, none, true, some similarities, rep, true⟩
    else ⟨none, none, true, some similarities, rep, false⟩

/-- `main()`, lines 210-353, for an already-parsed receptor list:
`prep` is the (external) outcome of `prepare_files` per receptor,
`protein` is `args.protein` (`none` models the non-list integer
default `-1`, on which any `len(args.protein)` raises `TypeError`;
`some ps` models `-p` with explicit values), `thr` is
`args.threshold`.  Concurrency only changes `compare_func`; the
sequential one is used here (`receptor_compare`). -/
def main_model (prep : Receptor → Bool) (ext : List String → ℕ → Option String)
    (fs : FS) (receptors : List Receptor) (mode : String)
    (protein : Option (List ℤ)) (thr : ℚ) : MainOutcome :=
  if ¬ (receptors.all prep = true) then
    ⟨some 1, none, false, none, false, false⟩
  else if mode = "map" then
    ⟨some 0, none, false, none, false, false⟩
  else
    let rawE : MainOutcome ⊕ Except PyErr (List (List ℚ)) :=
      if mode = "pro" then
        match protein with
        | none => Sum.inl ⟨none, some .typeError, false, none, false, false⟩
        | some ps =>
          match pro_selection receptors ps with
          | none => Sum.inl ⟨some 1, none, false, none, false, false⟩
          | some (src, recs) =>
            Sum.inr (Except.map (fun x => [x.1]) (receptor_compare ext fs src recs))
      else Sum.inr (all_rows ext fs receptors)
    match rawE with
    | Sum.inl out => out
    | Sum.inr (.error e) => ⟨none, some e, true, none, false, false⟩
    | Sum.inr (.ok raw) =>
      let similarities := apply_threshold thr raw
      let mode1 :=
        if mode = "pro" then
          match protein with
          | some ps => if 1 < ps.length then "" else mode
          | none => mode
        else mode
      report_and_graphs receptors raw similarities mode1 protein

example : pyRound4 (Rat.divInt 92 100) = Rat.divInt 92 100 := by decide
example : pyRound4 (Rat.divInt 25 100000) = Rat.divInt 2 10000 := by decide
example :
    apply_threshold (Rat.divInt 30 100) [[Rat.divInt 92 100, Rat.divInt 10 100]]
      = [[Rat.divInt 92 100, 0]] := by decide
example :
    py_sorted_desc ([Rat.divInt 1 2, Rat.divInt 9 10, Rat.divInt 1 2].enum)
      = [(1, Rat.divInt 9 10), (0, Rat.divInt 1 2), (2, Rat.divInt 1 2)] := by decide

/-! ## Shared lemmas about `glosa` and `get_ga_score` -/

/-- A pair `(res, n)` returned by the retry loop with an `ok` result is
internally consistent: re-parsing the stored raw output yields the
stored score (on exhaustion the output is `""`, which parses to the
sentinel `-1.0`). -/
lemma glosaAttempts_ok_parse (a : ℕ → Option String) :
    ∀ (fuel i : ℕ) (res : GlosaResult) (n : ℕ),
      glosaAttempts a i fuel = (.ok res, n) → get_ga_score res.output = .ok res.score := by
  intro fuel
  induction fuel with
  | zero =>
    intro i res n h
    rw [glosaAttempts] at h
    obtain ⟨h1, -⟩ := Prod.mk.injEq .. ▸ h
    obtain rfl := (Except.ok.inj h1).symm
    with_unfolding_all decide
  | succ fuel ih =>
    intro i res n h
    rw [glosaAttempts] at h
    split at h
    next out ha =>
      split at h
      next s hg =>
        obtain ⟨h1, -⟩ := Prod.mk.injEq .. ▸ h
        obtain rfl := (Except.ok.inj h1).symm
        exact hg
      next e hg =>
        exact absurd (Prod.mk.injEq .. ▸ h).1 (by intro hc; exact Except.noConfusion hc)
    next ha =>
      exact ih (i + 1) res n h

/-- Same consistency fact for `glosa` itself. -/
lemma glosa_ok_parse (a : ℕ → Option String) (res : GlosaResult) (n : ℕ)
    (h : glosa a = (.ok res, n)) : get_ga_score res.output = .ok res.score :=
  glosaAttempts_ok_parse a 3 0 res n h

/-- An `ok` result of the retry loop is either the exhaustion sentinel
or carries the output of one actual attempt. -/
lemma glosaAttempts_ok_sources (a : ℕ → Option String) :
    ∀ (fuel i : ℕ) (res : GlosaResult) (n : ℕ),
      glosaAttempts a i fuel = (.ok res, n) →
      res = ⟨-1, ""⟩ ∨ ∃ j, a j = some res.output := by
  intro fuel
  induction fuel with
  | zero =>
    intro i res n h
    rw [glosaAttempts] at h
    exact Or.inl (Except.ok.inj (Prod.mk.injEq .. ▸ h).1).symm
  | succ fuel ih =>
    intro i res n h
    rw [glosaAttempts] at h
    split at h
    next out ha =>
      split at h
      next s hg =>
        obtain rfl := (Except.ok.inj (Prod.mk.injEq .. ▸ h).1).symm
        exact Or.inr ⟨i, ha⟩
      next e hg =>
        exact absurd (Prod.mk.injEq .. ▸ h).1 (by intro hc; exact Except.noConfusion hc)
    next ha =>
      exact ih (i + 1) res n h

/-- Same fact for `glosa` itself. -/
lemma glosa_ok_sources (a : ℕ → Option String) (res : GlosaResult) (n : ℕ)
    (h : glosa a = (.ok res, n)) : res = ⟨-1, ""⟩ ∨ ∃ j, a j = some res.output :=
  glosaAttempts_ok_sources a 3 0 res n h

/-- If no line of the scorer output carries the `GA-score` marker, the
scan returns the sentinel. -/
lemma ga_score_lines_no_marker :
    ∀ ls : List String, (∀ l ∈ ls, l.startsWith "GA-score" = false) →
      ga_score_lines ls = .ok (-1) := by
  intro ls
  induction ls with
  | nil => intro _; rfl
  | cons l rest ih =>
    intro h
    rw [ga_score_lines, h l (List.mem_cons_self l rest)]
    simp only [Bool.false_eq_true, if_false]
    exact ih fun x hx => h x (List.mem_cons_of_mem l hx)

/-- An external command failing on each of the three attempts
exhausts the retry loop. -/
lemma glosa_exhausts (b : ℕ → Option String) (hb : ∀ i, i < 3 → b i = none) :
    glosa b = (.ok ⟨-1, ""⟩, 3) := by
  rw [glosa, glosaAttempts, hb 0 (by norm_num), glosaAttempts,
    hb 1 (by norm_num), glosaAttempts, hb 2 (by norm_num), glosaAttempts]

/-! ## C2: retry bound -/

/-- C2.  Retry bound: if the external command fails (non-zero exit) on
every attempt, `glosa` invokes it exactly 3 times and then returns the
sentinel score `-1.0` with the (empty) last captured output — and a
`receptors_similarity` call around such a `glosa` run returns normally
(`.ok`, clamped score), so the run continues instead of aborting. -/
theorem retry_bound_three (a : ℕ → Option String) (h : ∀ i, i < 3 → a i = none) :
    glosa a = (.ok ⟨-1, ""⟩, 3) ∧
    ∀ (ext : List String → ℕ → Option String) (fs : FS) (r1 r2 : Receptor),
      (∀ i, i < 3 → ext (glosa_cmd r1 r2) i = none) →
      fs (out_file r1 r2) = none → fs (out_file_opt r1 r2) = none →
      receptors_similarity ext fs r1 r2 =
        .ok ⟨0, fsUpdate fs (out_file r1 r2) "", 3⟩ := by
  refine ⟨glosa_exhausts a h, ?_⟩
  intro ext fs r1 r2 hext h1 h2
  rw [receptors_similarity, if_pos ⟨h1, h2⟩, glosa_exhausts (ext (glosa_cmd r1 r2)) hext]
  norm_num [score_or_zero]

/-- Witness for C2 at a concrete always-failing scorer. -/
theorem retry_bound_three_witness :
    glosa (fun _ => none) = (.ok ⟨-1, ""⟩, 3) :=
  (retry_bound_three (fun _ => none) (fun _ _ => rfl)).1

/-! ## C3: malformed output and retries -/

/-- Attempt behaviour refuting C3: attempt 0 exits 0 with marker-less
output, later attempts would succeed with a parsable score. -/
def c3_attempts : ℕ → Option String :=
  fun i => if i = 0 then some "no marker" else some "GA-score : 0.7"

/-- Counterexample to C3 as stated: after a successful-exit attempt
whose output lacks the marker, `glosa` does NOT retry — it returns
after exactly 1 invocation (with sentinel score), never seeing the
parsable output attempt 1 would have produced. -/
theorem malformed_no_retry_counterexample :
    glosa c3_attempts = (.ok ⟨-1, "no marker"⟩, 1) ∧ ¬ 2 ≤ (glosa c3_attempts).2 := by
  with_unfolding_all decide

/-- C3 (amended).  An attempt whose external command exits successfully
but whose output lacks the `GA-score` marker line is treated as a
*successful* attempt: `glosa` returns immediately after that single
invocation with the sentinel score `-1.0` and that raw output; only a
non-zero exit (`CalledProcessError`) triggers a retry. -/
theorem malformed_output_returns_immediately (a : ℕ → Option String) (out : String)
    (h0 : a 0 = some out)
    (hnm : ∀ l ∈ pySplitlines out, l.startsWith "GA-score" = false) :
    glosa a = (.ok ⟨-1, out⟩, 1) := by
  have hparse : get_ga_score out = .ok (-1) := by
    rw [get_ga_score]
    exact ga_score_lines_no_marker _ hnm
  rw [glosa, glosaAttempts]
  simp only [h0, hparse]

/-- Witness for the amended C3 at a concrete marker-less output. -/
theorem malformed_output_returns_immediately_witness :
    glosa (fun _ => some "hello") = (.ok ⟨-1, "hello"⟩, 1) :=
  malformed_output_returns_immediately (fun _ => some "hello") "hello" rfl
    (by with_unfolding_all decide)

/-! ## C7: threshold semantics -/

/-- C7.  Threshold semantics of line 266: every matrix entry strictly
below the threshold becomes exactly `0.0`, every remaining entry is
rounded to 4 decimal places, uniformly over all entries (the diagonal
included); in particular the spec's concrete 3×3 example. -/
theorem threshold_semantics :
    (∀ (t : ℚ) (m : List (List ℚ)) (i j : ℕ) (x : ℚ), mentry m i j = some x →
      (x < t → mentry (apply_threshold t m) i j = some 0) ∧
      (t ≤ x → mentry (apply_threshold t m) i j = some (pyRound4 x))) ∧
    apply_threshold (Rat.divInt 30 100)
        [[1, Rat.divInt 92 100, Rat.divInt 50 100],
         [Rat.divInt 92 100, 1, Rat.divInt 10 100],
         [Rat.divInt 50 100, Rat.divInt 10 100, 1]]
      = [[1, Rat.divInt 92 100, Rat.divInt 50 100],
         [Rat.divInt 92 100, 1, 0],
         [Rat.divInt 50 100, 0, 1]] := by
  constructor
  · intro t m i j x hx
    have key : mentry (apply_threshold t m) i j
        = some (if t ≤ x then pyRound4 x else 0) := by
      rw [mentry] at hx
      rcases hrow : m.get? i with - | row
      · rw [hrow] at hx
        exact absurd hx (by simp)
      · rw [hrow] at hx
        simp only [Option.some_bind] at hx
        rw [mentry, apply_threshold, List.get?_map, hrow]
        simp only [Option.map_some', Option.some_bind, List.get?_map, hx,
          Option.map_some']
    exact ⟨fun hlt => by rw [key, if_neg (not_le.mpr hlt)],
      fun hle => by rw [key, if_pos hle]⟩
  · decide

/-- Witness for C7: the below-threshold entry of a concrete matrix is
zeroed. -/
theorem threshold_semantics_witness :
    mentry (apply_threshold (Rat.divInt 30 100) [[Rat.divInt 10 100]]) 0 0
      = some 0 :=
  (threshold_semantics.1 (Rat.divInt 30 100) [[Rat.divInt 10 100]] 0 0
    (Rat.divInt 10 100) (by decide)).1 (by decide)

/-! ## C8: ranking determinism -/

/-- The strict order in which line 290's stable descending sort emits
the (index, score) pairs of an enumerated row: higher score first,
equal scores in original index order. -/
def rank_lex (a b : ℕ × ℚ) : Prop :=
  b.2 < a.2 ∨ (a.2 = b.2 ∧ a.1 < b.1)

lemma mem_insort_desc (x : ℕ × ℚ) :
    ∀ (l : List (ℕ × ℚ)) (y : ℕ × ℚ), y ∈ insort_desc x l ↔ y = x ∨ y ∈ l := by
  intro l
  induction l with
  | nil => intro y; simp [insort_desc]
  | cons z zs ih =>
    intro y
    rw [insort_desc]
    by_cases hc : x.2 < z.2
    · rw [if_pos hc]
      simp only [List.mem_cons, ih]
      tauto
    · rw [if_neg hc]
      simp [List.mem_cons]

lemma insort_desc_perm (x : ℕ × ℚ) :
    ∀ l : List (ℕ × ℚ), (insort_desc x l).Perm (x :: l) := by
  intro l
  induction l with
  | nil => rfl
  | cons z zs ih =>
    rw [insort_desc]
    by_cases hc : x.2 < z.2
    · rw [if_pos hc]
      exact (ih.cons z).trans (List.Perm.swap x z zs)
    · rw [if_neg hc]

lemma insort_desc_pairwise (x : ℕ × ℚ) :
    ∀ l : List (ℕ × ℚ), List.Pairwise rank_lex l → (∀ y ∈ l, x.1 < y.1) →
      List.Pairwise rank_lex (insort_desc x l) := by
  intro l
  induction l with
  | nil => intro _ _; simp [insort_desc]
  | cons z zs ih =>
    intro hl hidx
    rw [insort_desc]
    rw [List.pairwise_cons] at hl
    by_cases hc : x.2 < z.2
    · rw [if_pos hc]
      rw [List.pairwise_cons]
      refine ⟨?_, ih hl.2 fun y hy => hidx y (List.mem_cons_of_mem z hy)⟩
      intro y hy
      rcases (mem_insort_desc x zs y).mp hy with rfl | hy'
      · exact Or.inl hc
      · exact hl.1 y hy'
    · rw [if_neg hc]
      rw [List.pairwise_cons]
      refine ⟨?_, List.pairwise_cons.mpr hl⟩
      intro y hy
      rcases List.mem_cons.mp hy with rfl | hy'
      · rcases lt_or_eq_of_le (not_lt.mp hc) with hlt | heq
        · exact Or.inl hlt
        · exact Or.inr ⟨heq.symm, hidx y (List.mem_cons_self y zs)⟩
      · rcases hl.1 y hy' with hlt | ⟨heq, -⟩
        · exact Or.inl (lt_of_lt_of_le hlt (not_lt.mp hc))
        · rcases lt_or_eq_of_le (not_lt.mp hc) with h1 | h1
          · exact Or.inl (heq ▸ h1)
          · exact Or.inr ⟨h1.symm.trans heq, hidx y (List.mem_cons_of_mem z hy')⟩

lemma py_sorted_desc_perm : ∀ l : List (ℕ × ℚ), (py_sorted_desc l).Perm l := by
  intro l
  induction l with
  | nil => rfl
  | cons x xs ih =>
    rw [py_sorted_desc]
    exact (insort_desc_perm x (py_sorted_desc xs)).trans (ih.cons x)

lemma py_sorted_desc_pairwise :
    ∀ l : List (ℕ × ℚ), List.Pairwise (fun a b => a.1 < b.1) l →
      List.Pairwise rank_lex (py_sorted_desc l) := by
  intro l
  induction l with
  | nil => intro _; exact List.Pairwise.nil
  | cons x xs ih =>
    intro h
    rw [List.pairwise_cons] at h
    rw [py_sorted_desc]
    refine insort_desc_pairwise x (py_sorted_desc xs) (ih h.2) ?_
    intro y hy
    exact h.1 y ((py_sorted_desc_perm xs).mem_iff.mp hy)

lemma enumFrom_fst_lower {α : Type} :
    ∀ (l : List α) (n : ℕ) (p : ℕ × α), p ∈ l.enumFrom n → n ≤ p.1 := by
  intro l
  induction l with
  | nil => intro n p hp; exact absurd hp (by simp)
  | cons x xs ih =>
    intro n p hp
    rcases List.mem_cons.mp hp with rfl | hp'
    · exact le_refl n
    · exact le_of_lt (lt_of_lt_of_le (Nat.lt_succ_self n) (ih (n + 1) p hp'))

lemma enumFrom_pairwise_lt {α : Type} :
    ∀ (l : List α) (n : ℕ), List.Pairwise (fun a b : ℕ × α => a.1 < b.1) (l.enumFrom n) := by
  intro l
  induction l with
  | nil => intro n; exact List.Pairwise.nil
  | cons x xs ih =>
    intro n
    rw [List.enumFrom]
    rw [List.pairwise_cons]
    exact ⟨fun p hp => lt_of_lt_of_le (Nat.lt_succ_self n) (enumFrom_fst_lower xs (n + 1) p hp),
      ih (n + 1)⟩

/-- C8.  Ranking determinism: for every row, the list produced by the
line-290 sort is a permutation of the enumerated row ordered by
strictly descending score with ties in original index order; and the
spec's concrete example `{B: 0.5, C: 0.9, D: 0.5}` (indices 0, 1, 2)
ranks C, then B, then D. -/
theorem ranking_determinism :
    (∀ row : List ℚ,
      (py_sorted_desc row.enum).Perm row.enum ∧
      List.Pairwise rank_lex (py_sorted_desc row.enum)) ∧
    rank_row [Rat.divInt 1 2, Rat.divInt 9 10, Rat.divInt 1 2]
      = [(1, Rat.divInt 9 10), (0, Rat.divInt 1 2), (2, Rat.divInt 1 2)] := by
  constructor
  · intro row
    exact ⟨py_sorted_desc_perm row.enum,
      py_sorted_desc_pairwise row.enum (enumFrom_pairwise_lt row 0)⟩
  · decide

/-! ## C9: index stability across re-registration -/

lemma registerOne_malformed (c : ℕ) (p d : String) (h : is_malformed p = true) :
    registerOne c p d = (nullReceptor, c) := by
  rw [is_malformed] at h
  rcases hs : pySplitlines p with - | ⟨first, rest⟩
  · simp only [registerOne, hs]
  · rw [hs] at h
    have hlen : (pySplitWs first).length < 2 := by
      simpa using h
    have hnone : (pySplitWs first).get? 1 = none := by
      rw [List.get?_eq_none]
      omega
    simp only [registerOne, hs, hnone]

lemma registerOne_wf (c : ℕ) (p d : String) (h : is_malformed p = false) :
    (registerOne c p d).1.index = some (toString c) ∧ (registerOne c p d).2 = c + 1 := by
  rw [is_malformed] at h
  rcases hs : pySplitlines p with - | ⟨first, rest⟩
  · rw [hs] at h
    exact absurd h (by simp)
  · rw [hs] at h
    have hlen : 1 < (pySplitWs first).length := by
      simp only [decide_eq_false_iff_not, not_lt] at h
      omega
    rcases hy : (pySplitWs first).get? 1 with - | y
    · exact absurd (List.get?_eq_none.mp hy) (by omega)
    · refine ⟨?_, ?_⟩ <;> simp only [registerOne, hs, hy]

lemma wf_indices_shift :
    ∀ (pdbs : List String) (c k : ℕ),
      wf_indices (c + k) pdbs = (wf_indices c pdbs).map (Option.map (· + k)) := by
  intro pdbs
  induction pdbs with
  | nil => intro c k; rfl
  | cons p rest ih =>
    intro c k
    rw [wf_indices, wf_indices]
    by_cases h : is_malformed p
    · rw [if_pos h, if_pos h, List.map_cons, ih c k, Option.map_none']
    · rw [if_neg h, if_neg h, List.map_cons, show c + k + 1 = (c + 1) + k by omega,
        ih (c + 1) k, Option.map_some']

lemma registerAll_indices :
    ∀ (pdbs : List String) (c : ℕ) (dir : String),
      (registerAll c pdbs dir).1.map Receptor.index
        = (wf_indices c pdbs).map (Option.map toString) := by
  intro pdbs
  induction pdbs with
  | nil => intro c dir; rfl
  | cons p rest ih =>
    intro c dir
    rw [registerAll, wf_indices]
    by_cases h : is_malformed p
    · rw [if_pos h]
      simp only [registerOne_malformed c p dir h, List.map_cons, ih, nullReceptor,
        Option.map_none']
    · rw [if_neg h]
      obtain ⟨h1, h2⟩ := registerOne_wf c p dir (by simpa using h)
      simp only [List.map_cons, h1, h2, ih, Option.map_some']

lemma registerAll_counter :
    ∀ (pdbs : List String) (c : ℕ) (dir : String),
      (registerAll c pdbs dir).2 = c + wfCount pdbs := by
  intro pdbs
  induction pdbs with
  | nil => intro c dir; simp [registerAll, wfCount]
  | cons p rest ih =>
    intro c dir
    have hstep : (registerAll c (p :: rest) dir).2
        = (registerAll (registerOne c p dir).2 rest dir).2 := rfl
    rw [hstep, ih]
    by_cases h : is_malformed p = true
    · have h2 : (registerOne c p dir).2 = c := by
        rw [registerOne_malformed c p dir h]
      have hw : wfCount (p :: rest) = wfCount rest := by
        rw [wfCount, wfCount, List.filter_cons]
        simp [h]
      rw [h2, hw]
    · have h2 := (registerOne_wf c p dir (by simpa using h)).2
      have hw : wfCount (p :: rest) = wfCount rest + 1 := by
        rw [wfCount, wfCount, List.filter_cons]
        simp [h]
      rw [h2, hw]
      omega

/-- Counterexample to C9 as stated: registering the same well-formed
record a second time in the same process (class counter not reset)
assigns index `"1"`, not the first registration's `"0"`. -/
theorem index_stability_counterexample :
    ¬ ((registerAll (registerAll 0 ["HEADER abc"] "").2 ["HEADER abc"] "").1.map
          Receptor.index
        = (registerAll 0 ["HEADER abc"] "").1.map Receptor.index) := by
  with_unfolding_all decide

/-- C9 (amended).  Registration is deterministic in the class counter:
a batch registered with counter `c` gets exactly the numeric indices
`wf_indices c pdbs` (as strings); re-registering the same batch in the
same process continues from `c + wfCount pdbs`, so every well-formed
record's index is shifted by the number of well-formed records of the
first batch — the assignments coincide only when that number is zero
(e.g. in a fresh process). -/
theorem index_shift_on_reregistration (c : ℕ) (pdbs : List String) (dir : String) :
    (registerAll c pdbs dir).1.map Receptor.index
      = (wf_indices c pdbs).map (Option.map toString) ∧
    (registerAll ((registerAll c pdbs dir).2) pdbs dir).1.map Receptor.index
      = (wf_indices c pdbs).map (Option.map fun m => toString (m + wfCount pdbs)) ∧
    (wfCount pdbs = 0 →
      (registerAll ((registerAll c pdbs dir).2) pdbs dir).1.map Receptor.index
        = (registerAll c pdbs dir).1.map Receptor.index) := by
  have hshift : (registerAll ((registerAll c pdbs dir).2) pdbs dir).1.map Receptor.index
      = (wf_indices c pdbs).map (Option.map fun m => toString (m + wfCount pdbs)) := by
    rw [registerAll_indices pdbs _ dir, registerAll_counter pdbs c dir,
      wf_indices_shift pdbs c (wfCount pdbs), List.map_map]
    congr 1
    funext o
    cases o with
    | none => rfl
    | some m => rfl
  refine ⟨registerAll_indices pdbs c dir, hshift, fun h0 => ?_⟩
  rw [hshift, registerAll_indices pdbs c dir, h0]
  simp

/-- Witness for the amended C9: a batch with no well-formed record
re-registers with identical (all-`None`) index assignments. -/
theorem index_shift_on_reregistration_witness :
    (registerAll ((registerAll 0 ["junk"] "").2) ["junk"] "").1.map Receptor.index
      = (registerAll 0 ["junk"] "").1.map Receptor.index :=
  (index_shift_on_reregistration 0 ["junk"] "").2.2 (by with_unfolding_all decide)

/-! ## C1: cache symmetry via reuse -/

/-- C1.  Cache symmetry via reuse: once the comparison of `(r1, r2)`
has been computed and its cache file written (a `.ok` run from a state
holding neither ordering of the pair's file), a request for the
reversed pair `(r2, r1)` — with *any* scorer behaviour `ext'` — takes
the cache branch, returns the same score, leaves the file system
unchanged, and makes 0 external invocations, because the lookup checks
the pair's file name under both orderings. -/
theorem cache_symmetry (ext ext' : List String → ℕ → Option String) (fs : FS)
    (r1 r2 : Receptor) (hdir : r1.directory = r2.directory)
    (h1 : fs (out_file r1 r2) = none) (h2 : fs (out_file_opt r1 r2) = none)
    (g : SimResult) (hrun : receptors_similarity ext fs r1 r2 = .ok g) :
    receptors_similarity ext' g.fs r2 r1 = .ok ⟨g.score, g.fs, 0⟩ := by
  have hswap1 : out_file r2 r1 = out_file_opt r1 r2 := by
    simp only [out_file, out_file_opt, hdir]
  have hswap2 : out_file_opt r2 r1 = out_file r1 r2 := by
    simp only [out_file, out_file_opt, hdir]
  rw [receptors_similarity, if_pos ⟨h1, h2⟩] at hrun
  split at hrun
  next e n heq => exact absurd hrun (fun hc => Except.noConfusion hc)
  next res n heq =>
    obtain rfl := Except.ok.inj hrun
    have hparse : get_ga_score res.output = .ok res.score :=
      glosa_ok_parse _ res n heq
    have hov : fsUpdate fs (out_file r1 r2) res.output (out_file_opt r2 r1)
        = some res.output := by
      rw [hswap2, fsUpdate, if_pos rfl]
    rw [receptors_similarity]
    rw [if_neg (fun hc => by
      have := hc.2
      rw [show (⟨score_or_zero res.score, fsUpdate fs (out_file r1 r2) res.output, n⟩
          : SimResult).fs = fsUpdate fs (out_file r1 r2) res.output from rfl, hov] at this
      exact Option.noConfusion this)]
    by_cases hcoin : out_file r2 r1 = out_file r1 r2
    · have hp : fsUpdate fs (out_file r1 r2) res.output (out_file r2 r1)
          = some res.output := by
        rw [hcoin, fsUpdate, if_pos rfl]
      simp only [hp, hparse, Option.getD_some, ne_eq, reduceCtorEq, not_false_eq_true,
        if_true, reduceIte]
    · have hp : fsUpdate fs (out_file r1 r2) res.output (out_file r2 r1) = none := by
        rw [fsUpdate, if_neg hcoin, hswap1]
        exact h2
      simp only [hp, hov, hparse, Option.getD_some, ne_eq, not_true_eq_false,
        if_false, reduceIte]

/-- Concrete receptors for witnesses and counterexamples. -/
def recA : Receptor :=
  ⟨some "aaa", some "0", none, none, none, some "d/", some "fa", some "ca"⟩

/-- Concrete receptors for witnesses and counterexamples. -/
def recB : Receptor :=
  ⟨some "bbb", some "1", none, none, none, some "d/", some "fb", some "cb"⟩

/-- A deterministic scorer succeeding at once with score `0.25`. -/
def extQuarter : List String → ℕ → Option String :=
  fun _ _ => some "GA-score : 0.25"

/-- Witness for C1: after computing `(recA, recB)` from an empty
directory, the reversed request `(recB, recA)` under an
always-failing scorer still returns the cached score `0.25` with 0
invocations. -/
theorem cache_symmetry_witness :
    receptors_similarity (fun _ _ => none)
        (fsUpdate fsEmpty (out_file recA recB) "GA-score : 0.25") recB recA
      = .ok ⟨1/4, fsUpdate fsEmpty (out_file recA recB) "GA-score : 0.25", 0⟩ :=
  cache_symmetry extQuarter (fun _ _ => none) fsEmpty recA recB rfl rfl rfl
    ⟨1/4, fsUpdate fsEmpty (out_file recA recB) "GA-score : 0.25", 1⟩
    (by with_unfolding_all rfl)

/-! ## C4: sentinel propagation into the raw matrix -/

lemma score_or_zero_nonneg (s : ℚ) : 0 ≤ score_or_zero s := by
  rw [score_or_zero]
  split
  next h => exact h
  next h => exact le_refl 0

lemma score_or_zero_le_one (s : ℚ) (h : s ≤ 1) : score_or_zero s ≤ 1 := by
  rw [score_or_zero]
  split
  next => exact h
  next => norm_num

/-- Counterexample to C4 as stated: for a pair whose scoring fails on
all retry attempts, the raw matrix entry (the value
`receptors_similarity` returns) is `0.0`, not the sentinel `-1.0`. -/
theorem sentinel_matrix_counterexample :
    Except.map SimResult.score
        (receptors_similarity (fun _ _ => none) fsEmpty recA recB) = .ok 0
      ∧ ¬ ((0 : ℚ) = -1) := by
  constructor
  · with_unfolding_all decide
  · norm_num

/-- C4 (amended).  Sentinel clamping: a pair whose scoring fails on all
retry attempts is recorded in the raw matrix as `0.0` (the sentinel
`-1.0` is clamped by lines 147-153 before the row is built); every raw
matrix entry is `≥ 0`, and is in `[0, 1]` provided every parsable
cached file and every parsable scorer output yields a score `≤ 1`. -/
theorem sentinel_clamped_to_zero (ext : List String → ℕ → Option String)
    (fs : FS) (r1 r2 : Receptor) :
    ((∀ i, i < 3 → ext (glosa_cmd r1 r2) i = none) →
      fs (out_file r1 r2) = none → fs (out_file_opt r1 r2) = none →
      Except.map SimResult.score (receptors_similarity ext fs r1 r2) = .ok 0) ∧
    (∀ g, receptors_similarity ext fs r1 r2 = .ok g → 0 ≤ g.score) ∧
    ((∀ f c q, fs f = some c → get_ga_score c = .ok q → q ≤ 1) →
      (∀ cm i out q, ext cm i = some out → get_ga_score out = .ok q → q ≤ 1) →
      ∀ g, receptors_similarity ext fs r1 r2 = .ok g → g.score ≤ 1) := by
  refine ⟨?_, ?_, ?_⟩
  · intro hext hf1 hf2
    rw [receptors_similarity, if_pos ⟨hf1, hf2⟩,
      glosa_exhausts (ext (glosa_cmd r1 r2)) hext]
    norm_num [score_or_zero, Except.map]
  · intro g hg
    rw [receptors_similarity] at hg
    split at hg
    · split at hg
      next e n heq => exact absurd hg (fun hc => Except.noConfusion hc)
      next res n heq =>
        obtain rfl := Except.ok.inj hg
        exact score_or_zero_nonneg res.score
    · split at hg
      next e heq => exact absurd hg (fun hc => Except.noConfusion hc)
      next s heq =>
        obtain rfl := Except.ok.inj hg
        exact score_or_zero_nonneg s
  · intro hfs hext g hg
    rw [receptors_similarity] at hg
    split at hg
    next hcond =>
      split at hg
      next e n heq => exact absurd hg (fun hc => Except.noConfusion hc)
      next res n heq =>
        obtain rfl := Except.ok.inj hg
        rcases glosa_ok_sources _ res n heq with hres | ⟨j, hj⟩
        · rw [hres]
          norm_num [score_or_zero]
        · exact score_or_zero_le_one res.score
            (hext _ j res.output res.score hj (glosa_ok_parse _ res n heq))
    next hcond =>
      rcases hcache : fs (if fs (out_file r1 r2) ≠ none then out_file r1 r2
          else out_file_opt r1 r2) with - | c
      · exfalso
        by_cases hp : fs (out_file r1 r2) = none
        · have ho : fs (out_file_opt r1 r2) ≠ none := fun ho => hcond ⟨hp, ho⟩
          rw [if_neg (fun hc => hc hp)] at hcache
          exact ho hcache
        · rw [if_pos hp] at hcache
          exact hp hcache
      · rw [hcache] at hg
        split at hg
        next e heq => exact absurd hg (fun hc => Except.noConfusion hc)
        next s heq =>
          obtain rfl := Except.ok.inj hg
          rw [Option.getD_some] at heq
          exact score_or_zero_le_one s (hfs _ c s hcache heq)

/-- Witness for the amended C4: the all-attempts-fail branch yields the
raw matrix entry `0.0` at concrete receptors. -/
theorem sentinel_clamped_to_zero_witness :
    Except.map SimResult.score
        (receptors_similarity (fun _ _ => none) fsEmpty recB recA) = .ok 0 :=
  (sentinel_clamped_to_zero (fun _ _ => none) fsEmpty recB recA).1
    (fun _ _ => rfl) rfl rfl

/-! ## C5: fatal preparation gating -/

/-- Every path through the report/graph stage has already entered the
comparison stage and never calls `sys.exit`. -/
lemma report_and_graphs_proj (receptors : List Receptor) (raw similarities : List (List ℚ))
    (mode1 : String) (protein : Option (List ℤ)) :
    (report_and_graphs receptors raw similarities mode1 protein).exitCode = none ∧
    (report_and_graphs receptors raw similarities mode1 protein).comparisonsStarted
      = true := by
  rw [report_and_graphs]
  split
  next e heq => exact ⟨rfl, rfl⟩
  next rep heq =>
    split
    · split
      · exact ⟨rfl, rfl⟩
      · exact ⟨rfl, rfl⟩
    · exact ⟨rfl, rfl⟩

/-- C5.  Fatal preparation gating: if `prepare_files` returns false for
any registered entity, `main` exits with status 1 before any pair
comparison is attempted and before any matrix output is produced; if
preparation succeeds for every entity (shown for the default mode
`all`), the comparison stage is entered and no exit is taken. -/
theorem preparation_gating (prep : Receptor → Bool)
    (ext : List String → ℕ → Option String) (fs : FS) (receptors : List Receptor)
    (mode : String) (protein : Option (List ℤ)) (thr : ℚ) :
    ((∃ r ∈ receptors, prep r = false) →
      main_model prep ext fs receptors mode protein thr
        = ⟨some 1, none, false, none, false, false⟩) ∧
    (receptors.all prep = true → mode = "all" →
      (main_model prep ext fs receptors mode protein thr).comparisonsStarted = true ∧
      (main_model prep ext fs receptors mode protein thr).exitCode = none) := by
  constructor
  · rintro ⟨r, hr, hpr⟩
    rw [main_model.eq_def, if_pos]
    intro hall
    have := List.all_eq_true.mp hall r hr
    rw [hpr] at this
    exact Bool.noConfusion this
  · rintro hall rfl
    rw [main_model.eq_def, if_neg (fun hc => hc hall),
      if_neg (show ¬ (("all" : String) = "map") by decide),
      if_neg (show ¬ (("all" : String) = "pro") by decide)]
    cases hrows : all_rows ext fs receptors with
    | error e => exact ⟨rfl, rfl⟩
    | ok raw =>
      exact ⟨(report_and_graphs_proj ..).2, (report_and_graphs_proj ..).1⟩

/-- Witness for C5: a failing preparation on a one-entity list exits
with status 1 and no comparison. -/
theorem preparation_gating_witness :
    main_model (fun _ => false) (fun _ _ => none) fsEmpty [recA] "all" none 0
      = ⟨some 1, none, false, none, false, false⟩ :=
  (preparation_gating (fun _ => false) (fun _ _ => none) fsEmpty [recA] "all" none 0).1
    ⟨recA, List.mem_singleton.mpr rfl, rfl⟩

/-! ## C10: the missing `--protein` default -/

/-- C10.  When `-p` is not given, `args.protein` is the integer `-1`
(not a list), so `len(args.protein)` raises `TypeError` in every mode
but `map`: in `all`, `sim` and `dist` this happens after all
comparisons have been computed and thresholded (line 281) but before
the similarity report and the graphs; in `pro` it happens before any
comparison (line 252); `map` exits 0 cleanly.  Hence only `map` mode,
or a run where `-p` is given, can complete. -/
theorem protein_default_typeerror (prep : Receptor → Bool)
    (ext : List String → ℕ → Option String) (fs : FS) (receptors : List Receptor)
    (thr : ℚ) (hprep : receptors.all prep = true) :
    main_model prep ext fs receptors "map" none thr
      = ⟨some 0, none, false, none, false, false⟩ ∧
    (∀ rows, all_rows ext fs receptors = .ok rows →
      main_model prep ext fs receptors "all" none thr
        = ⟨none, some .typeError, true, some (apply_threshold thr rows), false, false⟩ ∧
      main_model prep ext fs receptors "sim" none thr
        = ⟨none, some .typeError, true, some (apply_threshold thr rows), false, false⟩ ∧
      main_model prep ext fs receptors "dist" none thr
        = ⟨none, some .typeError, true, some (apply_threshold thr rows), false, false⟩) ∧
    main_model prep ext fs receptors "pro" none thr
      = ⟨none, some .typeError, false, none, false, false⟩ := by
  refine ⟨?_, fun rows hrows => ⟨?_, ?_, ?_⟩, ?_⟩
  · rw [main_model.eq_def, if_neg (fun hc => hc hprep)]
    rfl
  · rw [main_model.eq_def, if_neg (fun hc => hc hprep),
      if_neg (show ¬ (("all" : String) = "map") by decide),
      if_neg (show ¬ (("all" : String) = "pro") by decide), hrows]
    rfl
  · rw [main_model.eq_def, if_neg (fun hc => hc hprep),
      if_neg (show ¬ (("sim" : String) = "map") by decide),
      if_neg (show ¬ (("sim" : String) = "pro") by decide), hrows]
    rfl
  · rw [main_model.eq_def, if_neg (fun hc => hc hprep),
      if_neg (show ¬ (("dist" : String) = "map") by decide),
      if_neg (show ¬ (("dist" : String) = "pro") by decide), hrows]
    rfl
  · rw [main_model.eq_def, if_neg (fun hc => hc hprep),
      if_neg (show ¬ (("pro" : String) = "map") by decide),
      if_pos (show ("pro" : String) = "pro" from rfl)]

/-- Witness for C10 on the empty receptor list (all comparisons
trivially done): `all` mode without `-p` dies with `TypeError` after
thresholding, before report and graphs. -/
theorem protein_default_typeerror_witness :
    main_model (fun _ => true) (fun _ _ => none) fsEmpty [] "all" none 0
      = ⟨none, some .typeError, true, some [], false, false⟩ :=
  ((protein_default_typeerror (fun _ => true) (fun _ _ => none) fsEmpty [] 0
    rfl).2.1 [] rfl).1

/-! ## C6: pooled vs sequential comparison -/

/-- A string free of the `'_'` separator used in cache file names. -/
def noUS (s : String) : Prop := '_' ∉ s.data

instance (s : String) : Decidable (noUS s) := by
  rw [noUS]
  infer_instance

lemma out_file_data (r t : Receptor) :
    (out_file r t).data
      = (fstr r.directory).data
        ++ ((fstr r.name).data ++ ('_' :: ((fstr t.name).data ++ ".out".data))) := by
  simp [out_file, String.data_append, List.append_assoc,
    show "_".data = ['_'] from rfl]

lemma out_file_opt_data (r t : Receptor) :
    (out_file_opt r t).data
      = (fstr r.directory).data
        ++ ((fstr t.name).data ++ ('_' :: ((fstr r.name).data ++ ".out".data))) := by
  simp [out_file_opt, String.data_append, List.append_assoc,
    show "_".data = ['_'] from rfl]

lemma underscore_sandwich :
    ∀ (a : List Char) (c b d : List Char), '_' ∉ a → '_' ∉ c →
      a ++ '_' :: b = c ++ '_' :: d → a = c ∧ b = d := by
  intro a
  induction a with
  | nil =>
    intro c b d ha hc h
    cases c with
    | nil =>
      rw [List.nil_append, List.nil_append] at h
      exact ⟨rfl, (List.cons.injEq .. ▸ h).2⟩
    | cons y ys =>
      exfalso
      rw [List.nil_append, List.cons_append] at h
      obtain ⟨h1, -⟩ := List.cons.injEq .. ▸ h
      exact hc (h1 ▸ List.mem_cons_self y ys)
  | cons x xs ih =>
    intro c b d ha hc h
    cases c with
    | nil =>
      exfalso
      rw [List.nil_append, List.cons_append] at h
      obtain ⟨h1, -⟩ := List.cons.injEq .. ▸ h
      exact ha (h1 ▸ List.mem_cons_self x xs)
    | cons y ys =>
      rw [List.cons_append, List.cons_append] at h
      obtain ⟨h1, h2⟩ := List.cons.injEq .. ▸ h
      obtain ⟨hac, hbd⟩ := ih ys b d (fun hm => ha (List.mem_cons_of_mem x hm))
        (fun hm => hc (List.mem_cons_of_mem y hm)) h2
      exact ⟨by rw [h1, hac], hbd⟩

lemma out_file_inj (r t t' : Receptor) :
    out_file r t = out_file r t' ↔ fstr t.name = fstr t'.name := by
  constructor
  · intro h
    have h2 := congrArg String.data h
    rw [out_file_data, out_file_data] at h2
    have h3 := List.append_cancel_left (List.append_cancel_left h2)
    have h4 := (List.cons.injEq .. ▸ h3).2
    exact String.ext (List.append_cancel_right h4)
  · intro h
    rw [out_file, out_file, h]

lemma out_file_opt_congr (r t t' : Receptor) (h : fstr t.name = fstr t'.name) :
    out_file_opt r t = out_file_opt r t' := by
  rw [out_file_opt, out_file_opt, h]

lemma out_file_opt_eq_out_file (r t t' : Receptor) (hr : noUS (fstr r.name))
    (ht : noUS (fstr t.name)) (h : out_file_opt r t = out_file r t') :
    fstr t.name = fstr r.name ∧ fstr r.name = fstr t'.name := by
  have h2 := congrArg String.data h
  rw [out_file_opt_data, out_file_data] at h2
  have h3 := List.append_cancel_left h2
  obtain ⟨hac, hbd⟩ := underscore_sandwich (fstr t.name).data (fstr r.name).data
    ((fstr r.name).data ++ ".out".data) ((fstr t'.name).data ++ ".out".data) ht hr h3
  exact ⟨String.ext hac, String.ext (List.append_cancel_right hbd)⟩

/-- (For the pooled-vs-sequential argument.)  How the file system of a
sequential row run may differ from the submission-time state `fs0`:
only by cache files `out_file r t` written for some target `t`, holding
the output of an `.ok` `glosa` run for that pair, written because
neither ordering existed in `fs0`. -/
def CacheInv (ext : List String → ℕ → Option String) (r : Receptor)
    (targets : List Receptor) (fs0 fs1 : FS) : Prop :=
  ∀ f, fs1 f = fs0 f ∨
    ∃ t, t ∈ targets ∧ f = out_file r t ∧ fs0 (out_file r t) = none ∧
      fs0 (out_file_opt r t) = none ∧
      ∃ res n, glosa (ext (glosa_cmd r t)) = (.ok res, n) ∧ fs1 f = some res.output

lemma CacheInv_refl (ext : List String → ℕ → Option String) (r : Receptor)
    (targets : List Receptor) (fs0 : FS) : CacheInv ext r targets fs0 fs0 :=
  fun _ => Or.inl rfl

lemma CacheInv_none {ext : List String → ℕ → Option String} {r : Receptor}
    {targets : List Receptor} {fs0 fs1 : FS} (h : CacheInv ext r targets fs0 fs1)
    {x : String} (hx : fs1 x = none) : fs0 x = none := by
  rcases h x with heq | ⟨t, -, -, -, -, res, n, -, hsome⟩
  · rw [← heq, hx]
  · rw [hx] at hsome
    exact Option.noConfusion hsome

/-- Which file system an `.ok` `receptors_similarity` run leaves
behind: the input one (cache hit), or the input one plus the freshly
written primary cache file (cache miss). -/
lemma receptors_similarity_ok_fs (ext : List String → ℕ → Option String) (fs : FS)
    (r1 r2 : Receptor) (g : SimResult)
    (h : receptors_similarity ext fs r1 r2 = .ok g) :
    g.fs = fs ∨
    (fs (out_file r1 r2) = none ∧ fs (out_file_opt r1 r2) = none ∧
      ∃ res n, glosa (ext (glosa_cmd r1 r2)) = (.ok res, n) ∧
        g.fs = fsUpdate fs (out_file r1 r2) res.output) := by
  rw [receptors_similarity] at h
  split at h
  next hcond =>
    split at h
    next e n heq => exact absurd h (fun hc => Except.noConfusion hc)
    next res n heq =>
      obtain rfl := Except.ok.inj h
      exact Or.inr ⟨hcond.1, hcond.2, res, n, heq, rfl⟩
  next hcond =>
    split at h
    next e heq => exact absurd h (fun hc => Except.noConfusion hc)
    next s heq =>
      obtain rfl := Except.ok.inj h
      exact Or.inl rfl

/-- Core of the pooled-vs-sequential argument: under the cache
invariant, a comparison of `(r, t)` returns the same score (or raises
the same exception) from the evolved state `fs1` as from the
submission-time state `fs0` — provided no underscore-induced file-name
collision can redirect the lookup (`noUS`), and equal names imply
equal scorer commands among the targets. -/
lemma sim_score_eq (ext : List String → ℕ → Option String) (r : Receptor)
    (targets : List Receptor) (fs0 fs1 : FS)
    (hr : noUS (fstr r.name)) (ht : ∀ t ∈ targets, noUS (fstr t.name))
    (hcmd : ∀ t ∈ targets, ∀ t' ∈ targets, fstr t.name = fstr t'.name →
      glosa_cmd r t = glosa_cmd r t')
    (hinv : CacheInv ext r targets fs0 fs1) (t : Receptor) (htmem : t ∈ targets) :
    Except.map SimResult.score (receptors_similarity ext fs1 r t)
      = Except.map SimResult.score (receptors_similarity ext fs0 r t) := by
  rcases h1 : fs1 (out_file r t) with - | c
  · have h0p : fs0 (out_file r t) = none := CacheInv_none hinv h1
    rcases h2 : fs1 (out_file_opt r t) with - | c
    · have h0o : fs0 (out_file_opt r t) = none := CacheInv_none hinv h2
      rw [receptors_similarity, receptors_similarity, if_pos ⟨h1, h2⟩,
        if_pos ⟨h0p, h0o⟩]
      rcases hgl : glosa (ext (glosa_cmd r t)) with ⟨gr, n⟩
      rcases gr with e | res <;> simp [Except.map]
    · rcases hinv (out_file_opt r t) with heq |
        ⟨t', ht'm, hf, hp', ho', res, n, hgl, hsome⟩
      · have h0o : fs0 (out_file_opt r t) = some c := by rw [← heq, h2]
        have hn1 : ¬ (fs1 (out_file r t) = none ∧ fs1 (out_file_opt r t) = none) :=
          fun hcond => by rw [h2] at hcond; exact Option.noConfusion hcond.2
        have hn0 : ¬ (fs0 (out_file r t) = none ∧ fs0 (out_file_opt r t) = none) :=
          fun hcond => by rw [h0o] at hcond; exact Option.noConfusion hcond.2
        rw [receptors_similarity, receptors_similarity, if_neg hn1, if_neg hn0]
        rcases hg : get_ga_score c with e | s <;>
          simp [h1, h0p, h2, h0o, hg, Except.map]
      · exfalso
        obtain ⟨hteq, -⟩ := out_file_opt_eq_out_file r t t' hr (ht t htmem) hf
        have hpo : out_file r t = out_file_opt r t := by
          rw [out_file, out_file_opt, hteq]
        rw [hpo, h2] at h1
        exact Option.noConfusion h1
  · rcases hinv (out_file r t) with heq |
      ⟨t', ht'm, hf, hp', ho', res, n, hgl, hsome⟩
    · have h0p : fs0 (out_file r t) = some c := by rw [← heq, h1]
      have hn1 : ¬ (fs1 (out_file r t) = none ∧ fs1 (out_file_opt r t) = none) :=
        fun hcond => by rw [h1] at hcond; exact Option.noConfusion hcond.1
      have hn0 : ¬ (fs0 (out_file r t) = none ∧ fs0 (out_file_opt r t) = none) :=
        fun hcond => by rw [h0p] at hcond; exact Option.noConfusion hcond.1
      rw [receptors_similarity, receptors_similarity, if_neg hn1, if_neg hn0]
      rcases hg : get_ga_score c with e | s <;>
        simp [h1, h0p, hg, Except.map]
    · have hnames : fstr t.name = fstr t'.name := (out_file_inj r t t').mp hf
      have hcmdeq : glosa_cmd r t = glosa_cmd r t' := hcmd t htmem t' ht'm hnames
      have hopt : out_file_opt r t = out_file_opt r t' := out_file_opt_congr r t t' hnames
      have h0p : fs0 (out_file r t) = none := by rw [hf]; exact hp'
      have h0o : fs0 (out_file_opt r t) = none := by rw [hopt]; exact ho'
      have hc : c = res.output := by
        rw [h1] at hsome
        exact Option.some.inj hsome
      have hparse : get_ga_score res.output = .ok res.score := glosa_ok_parse _ res n hgl
      have hn1 : ¬ (fs1 (out_file r t) = none ∧ fs1 (out_file_opt r t) = none) :=
        fun hcond => by rw [h1] at hcond; exact Option.noConfusion hcond.1
      rw [receptors_similarity, receptors_similarity, if_neg hn1,
        if_pos (show fs0 (out_file r t) = none ∧ fs0 (out_file_opt r t) = none
          from ⟨h0p, h0o⟩), hcmdeq, hgl]
      simp [h1, hc, hparse, Except.map]

/-- The induction behind C6: a sequential suffix run from any state
reachable under the cache invariant returns, score for score (and
error for error), what the pooled workers compute from the
submission-time state. -/
lemma compare_map_eq (ext : List String → ℕ → Option String) (r : Receptor)
    (targets : List Receptor) (fs0 : FS)
    (hr : noUS (fstr r.name)) (ht : ∀ t ∈ targets, noUS (fstr t.name))
    (hcmd : ∀ t ∈ targets, ∀ t' ∈ targets, fstr t.name = fstr t'.name →
      glosa_cmd r t = glosa_cmd r t') :
    ∀ rest : List Receptor, (∀ x ∈ rest, x ∈ targets) →
      ∀ fs1 : FS, CacheInv ext r targets fs0 fs1 →
      Except.map (fun x => x.1) (receptor_compare ext fs1 r rest)
        = pool_starmap
            (fun t => Except.map SimResult.score (receptors_similarity ext fs0 r t))
            rest := by
  intro rest
  induction rest with
  | nil => intro _ fs1 _; rfl
  | cons t ts ih =>
    intro hsub fs1 hinv
    have hkey := sim_score_eq ext r targets fs0 fs1 hr ht hcmd hinv t
      (hsub t (List.mem_cons_self t ts))
    rw [receptor_compare, pool_starmap]
    rcases hsim1 : receptors_similarity ext fs1 r t with e1 | g1 <;>
      rcases hsim0 : receptors_similarity ext fs0 r t with e0 | g0 <;>
      rw [hsim1, hsim0] at hkey <;>
      simp only [Except.map] at hkey
    · obtain rfl := Except.error.inj hkey
      simp [Except.map]
    · exact absurd hkey (fun hk => Except.noConfusion hk)
    · exact absurd hkey (fun hk => Except.noConfusion hk)
    · have hscore : g1.score = g0.score := Except.ok.inj hkey
      have hinv' : CacheInv ext r targets fs0 g1.fs := by
        rcases receptors_similarity_ok_fs ext fs1 r t g1 hsim1 with hsame |
          ⟨hp1, ho1, res, n, hgl, hupd⟩
        · rw [hsame]; exact hinv
        · intro f
          by_cases hfeq : f = out_file r t
          · refine Or.inr ⟨t, hsub t (List.mem_cons_self t ts), hfeq,
              CacheInv_none hinv hp1, CacheInv_none hinv ho1, res, n, hgl, ?_⟩
            rw [hupd, hfeq]
            simp [fsUpdate]
          · have hcopy : g1.fs f = fs1 f := by
              rw [hupd]
              simp [fsUpdate, hfeq]
            rcases hinv f with heq | ⟨t'', m'', hf'', hp'', ho'', res'', n'', hgl'', hs''⟩
            · exact Or.inl (hcopy.trans heq)
            · exact Or.inr ⟨t'', m'', hf'', hp'', ho'', res'', n'', hgl'',
                hcopy.trans hs''⟩
      have hrec := ih (fun x hx => hsub x (List.mem_cons_of_mem t hx)) g1.fs hinv'
      rw [← hrec]
      rcases hrc : receptor_compare ext g1.fs r ts with e | ⟨ss, fs', m⟩ <;>
        simp [hrc, Except.map, hscore]

/-- Counterexample receptors whose names collide through the `'_'`
separator: the cache file of `(recU1, recU2)` is also the
opposite-ordering cache file of `(recU1, recU3)`. -/
def recU1 : Receptor :=
  ⟨some "a", some "0", none, none, none, some "", some "fa", some "ca"⟩

/-- See `recU1`. -/
def recU2 : Receptor :=
  ⟨some "b_a", some "1", none, none, none, some "", some "fb", some "cb"⟩

/-- See `recU1`. -/
def recU3 : Receptor :=
  ⟨some "a_b", some "2", none, none, none, some "", some "fc", some "cc"⟩

/-- A deterministic scorer: 0.5 for the pair `(recU1, recU2)`, 0.9 for
`(recU1, recU3)`. -/
def extU : List String → ℕ → Option String :=
  fun cmd _ =>
    if cmd = glosa_cmd recU1 recU2 then some "GA-score : 0.5"
    else if cmd = glosa_cmd recU1 recU3 then some "GA-score : 0.9"
    else none

/-- Counterexample to C6 as stated: with underscore-colliding names
(`a`, `b_a`, `a_b`) and a deterministic scorer, the sequential row for
source `recU1` against `[recU2, recU3]` reads the `(recU1, recU2)`
cache file when scoring `(recU1, recU3)` (its name matches the
reversed-pair lookup) and returns `[0.5, 0.5]`, while the pooled row —
whose workers all start from the submission-time empty directory —
returns `[0.5, 0.9]`. -/
theorem pool_seq_counterexample :
    Except.map (fun x => x.1) (receptor_compare extU fsEmpty recU1 [recU2, recU3])
      = .ok [Rat.divInt 1 2, Rat.divInt 1 2]
    ∧ receptor_compare_con extU fsEmpty recU1 [recU2, recU3]
      = .ok [Rat.divInt 1 2, Rat.divInt 9 10]
    ∧ ¬ ([Rat.divInt 1 2, Rat.divInt 1 2] = [Rat.divInt 1 2, Rat.divInt 9 10]) := by
  refine ⟨?_, ?_, by decide⟩ <;> with_unfolding_all decide

/-- C6 (amended).  Pool-vs-sequential equivalence: for every source
entity and target list, under the deterministic scorer model, the
pooled comparison returns the same row of scores, in submission order,
as the sequential comparison — provided no entity name contains the
`'_'` cache-file separator (so distinct pairs cannot collide on a
cache file name) and name-equal targets share their scorer command. -/
theorem pool_sequential_equiv (ext : List String → ℕ → Option String) (fs : FS)
    (r : Receptor) (targets : List Receptor)
    (hr : noUS (fstr r.name)) (ht : ∀ t ∈ targets, noUS (fstr t.name))
    (hcmd : ∀ t ∈ targets, ∀ t' ∈ targets, fstr t.name = fstr t'.name →
      glosa_cmd r t = glosa_cmd r t') :
    Except.map (fun x => x.1) (receptor_compare ext fs r targets)
      = receptor_compare_con ext fs r targets := by
  rw [receptor_compare_con]
  exact compare_map_eq ext r targets fs hr ht hcmd targets (fun x hx => hx) fs
    (CacheInv_refl ext r targets fs)

/-- Witness for the amended C6: a duplicated underscore-free target —
the pooled row recomputes what the sequential row reads back from the
cache, with identical results. -/
theorem pool_sequential_equiv_witness :
    Except.map (fun x => x.1) (receptor_compare extQuarter fsEmpty recA [recB, recB])
      = receptor_compare_con extQuarter fsEmpty recA [recB, recB] :=
  pool_sequential_equiv extQuarter fsEmpty recA [recB, recB]
    (by with_unfolding_all decide) (by with_unfolding_all decide)
    (by with_unfolding_all decide)
